import Mathlib

/-!
Verification development for the rclone bisync conflict-resolution manager
(`python/rclone_sync.py`).  Text is modelled as `List Char`; the Python
regular-expression searches used by the manager are embedded as explicit
leftmost-search scanners with the same backtracking behaviour on the
patterns that actually occur in the source.
-/

namespace RcloneSync

/-- Text is a list of characters (one Python `str`). -/
abbrev Chars := List Char

/-- Coerce a Lean string literal to the character-list representation. -/
def str (s : String) : Chars := s.data

/-- Python `\s` / `str.strip()` whitespace (ASCII subset actually produced by rclone logs). -/
def isPySpace (c : Char) : Bool :=
  c = ' ' || c = '\t' || c = '\n' || c = '\r' || c = Char.ofNat 11 || c = Char.ofNat 12

/-- Python `str.strip()`: drop whitespace from both ends. -/
def pyStrip (l : Chars) : Chars :=
  ((l.dropWhile isPySpace).reverse.dropWhile isPySpace).reverse

/-- `hasPre p l` holds when `p` is an initial segment of `l` (a literal match at the head). -/
def hasPre : Chars → Chars → Bool
  | [], _ => true
  | _ :: _, [] => false
  | p :: ps, c :: cs => p = c && hasPre ps cs

/-- `hasSub p l` holds when `p` occurs contiguously anywhere in `l` (Python `p in l`). -/
def hasSub (p : Chars) : Chars → Bool
  | [] => hasPre p []
  | c :: cs => hasPre p (c :: cs) || hasSub p cs

/-- Per-character lowercasing, Python `str.lower()` on ASCII log text. -/
def lowerChars (l : Chars) : Chars := l.map Char.toLower

/-- Value of a digit run (Python `int(...)` on the captured group). -/
def digitsVal (l : Chars) : Nat :=
  l.foldl (fun acc c => 10 * acc + (c.toNat - 48)) 0

/-! ### Log-line patterns (`parse_rclone_output`, lines 380-420)

`error_pattern = ERROR\s*:\s*(.+)` : `re.search` finds the leftmost `ERROR`
followed by optional whitespace and a colon; the greedy `\s*(.+)` followed by
`.strip()` yields exactly `pyStrip` of the text after that colon, and the
match only exists when that text is nonempty. -/

/-- Try the `ERROR\s*:\s*(.+)` pattern at the head of the line; return the raw text after
the colon when the whole pattern matches here. -/
def errorAt (l : Chars) : Option Chars :=
  if hasPre (str "ERROR") l then
    match (l.drop 5).dropWhile isPySpace with
    | ':' :: t => if t = [] then none else some t
    | _ => none
  else none

/-- Leftmost match of the error pattern in a line (`re.search`). -/
def errorSearch : Chars → Option Chars
  | [] => none
  | c :: cs =>
    match errorAt (c :: cs) with
    | some t => some t
    | none => errorSearch cs

/-! `conflict_pattern = WARNING.*New or changed in both paths.*: (.+)`.
Both `.*` are greedy, so the engine takes the last occurrence of the fixed
sentence after `WARNING` that is still followed by a `": "` with at least one
character after it, and inside that region the last such `": "`. -/

/-- Greedy `.*: (.+)` tail: the text after the LAST `": "` that leaves the group nonempty. -/
def colonSpaceTail : Chars → Option Chars
  | [] => none
  | c :: cs =>
    match colonSpaceTail cs with
    | some r => some r
    | none =>
      if c = ':' then
        match cs with
        | ' ' :: r => if r = [] then none else some r
        | _ => none
      else none

/-- The fixed sentence of the conflict pattern. -/
def newBothMark : Chars := str "New or changed in both paths"

/-- Greedy `.*New or changed in both paths.*: (.+)` tail: prefer the latest occurrence
of the sentence that still has a valid `": "` tail after it. -/
def conflictTail : Chars → Option Chars
  | [] => none
  | c :: cs =>
    match conflictTail cs with
    | some r => some r
    | none =>
      if hasPre newBothMark (c :: cs) then colonSpaceTail ((c :: cs).drop newBothMark.length)
      else none

/-- Try the conflict pattern at the head of the line. -/
def conflictAt (l : Chars) : Option Chars :=
  if hasPre (str "WARNING") l then conflictTail (l.drop 7) else none

/-- Leftmost match of the conflict pattern in a line (`re.search`). -/
def conflictSearch : Chars → Option Chars
  | [] => none
  | c :: cs =>
    match conflictAt (c :: cs) with
    | some t => some t
    | none => conflictSearch cs

/-- One parsed log line-item (`FileIssue` dataclass). -/
structure FileIssue where
  path : Chars
  issue_type : Chars
  message : Chars
  local_mtime : Option Int := none
  remote_mtime : Option Int := none
deriving DecidableEq, Repr

/-- Classification of one log line inside `parse_rclone_output`: the conflict pattern is
tried first (`continue` on a hit), then the error pattern. -/
def classifyLine (l : Chars) : Option FileIssue :=
  match conflictSearch l with
  | some p => some { path := pyStrip p, issue_type := str "conflict", message := pyStrip l }
  | none =>
    match errorSearch l with
    | some m => some { path := [], issue_type := str "error", message := pyStrip m }
    | none => none

/-- `parse_rclone_output`: one streaming pass, one classification per line. -/
def parseRcloneOutput (log : List Chars) : List FileIssue :=
  log.filterMap classifyLine

/-- Error messages extracted from a log, as collected into `SyncResult.errors`
(`[i.message for i in issues if i.issue_type == "error"]`). -/
def errorsOfLog (log : List Chars) : List Chars :=
  ((parseRcloneOutput log).filter (fun i => i.issue_type = str "error")).map
    (fun i => i.message)

/-- Conflict paths extracted from a log, as collected into `SyncResult.conflicts_found`. -/
def conflictsOfLog (log : List Chars) : List Chars :=
  ((parseRcloneOutput log).filter (fun i => i.issue_type = str "conflict")).map
    (fun i => i.path)

/-! ### `_check_transfers_completed` (lines 422-454)

`transfer_pattern = Transferred:\s+(\d+)\s*/\s*(\d+),\s*100%`.  Every literal in
the pattern starts with a non-digit, non-whitespace character, so greedy
`\s+`/`\s*`/`\d+` need no backtracking: take the maximal run, then require the
next literal. -/

/-- Try the transfer-summary pattern at the head; return the two captured numbers. -/
def transferAt (l : Chars) : Option (Nat × Nat) :=
  if hasPre (str "Transferred:") l then
    let r := l.drop 12
    if (r.takeWhile isPySpace) = [] then none
    else
      let r1 := r.dropWhile isPySpace
      let d1 := r1.takeWhile Char.isDigit
      if d1 = [] then none
      else
        match (r1.dropWhile Char.isDigit).dropWhile isPySpace with
        | '/' :: r3 =>
          let r4 := r3.dropWhile isPySpace
          let d2 := r4.takeWhile Char.isDigit
          if d2 = [] then none
          else
            match r4.dropWhile Char.isDigit with
            | ',' :: r5 =>
              if hasPre (str "100%") (r5.dropWhile isPySpace) then
                some (digitsVal d1, digitsVal d2)
              else none
            | _ => none
        | _ => none
  else none

/-- Leftmost match of the transfer-summary pattern in a line. -/
def transferSearch : Chars → Option (Nat × Nat)
  | [] => none
  | c :: cs =>
    match transferAt (c :: cs) with
    | some t => some t
    | none => transferSearch cs

/-- A line establishing `transfers_complete`: leftmost match with
`transferred == total and total > 0`. -/
def transferLineComplete (l : Chars) : Bool :=
  match transferSearch l with
  | some (t, tot) => t = tot && 0 < tot
  | none => false

/-- A line establishing `has_metadata_errors` (plain substring membership tests). -/
def metadataErrLine (l : Chars) : Bool :=
  hasSub (str "Failed to update directory timestamp or metadata") l ||
    hasSub (str "error updating metadata") l

/-- `_check_transfers_completed`: the two flags are each "some line matched", and the
result is their conjunction. -/
def checkTransfersCompleted (log : List Chars) : Bool :=
  log.any transferLineComplete && log.any metadataErrLine

/-! ### `_parse_copy_failures` and `_parse_failed_files` (lines 456-503)

`ERROR\s*:\s*(.+?):\s*Failed to copy` : after the first colon the engine skips
the maximal whitespace run and then lazily grows the group to the earliest
later colon whose tail (after optional whitespace) begins with the literal.
(When only an immediate colon would match, the group strips to the empty
string and the caller drops it via `if file_path:`; the model returns `none`
there, which adds the same set of paths.) -/

/-- Lazy `(.+?):` scan: the shortest nonempty group ending at a colon whose tail
satisfies `tailOK`. -/
def lazyColon (tailOK : Chars → Bool) (acc : Chars) : Chars → Option Chars
  | [] => none
  | c :: cs =>
    if c = ':' && acc ≠ [] && tailOK cs then some acc.reverse
    else lazyColon tailOK (c :: acc) cs

/-- Tail of the copy-failure pattern: `\s*Failed to copy`. -/
def copyTailOK (t : Chars) : Bool :=
  hasPre (str "Failed to copy") (t.dropWhile isPySpace)

/-- Try the copy-failure pattern at the head of the line. -/
def copyFailAt (l : Chars) : Option Chars :=
  if hasPre (str "ERROR") l then
    match (l.drop 5).dropWhile isPySpace with
    | ':' :: t => (lazyColon copyTailOK [] (t.dropWhile isPySpace)).map pyStrip
    | _ => none
  else none

/-- Leftmost match of the copy-failure pattern in a line. -/
def copyFailSearch : Chars → Option Chars
  | [] => none
  | c :: cs =>
    match copyFailAt (c :: cs) with
    | some t => some t
    | none => copyFailSearch cs

/-- `_parse_copy_failures`: collect nonempty captured paths over all lines.  The source
accumulates into a Python `set` and returns `list(set)`, whose order is unspecified;
the model fixes first-occurrence order, and no theorem below depends on that order. -/
def parseCopyFailures (log : List Chars) : List Chars :=
  log.foldl
    (fun acc l =>
      match copyFailSearch l with
      | some p => if p ≠ [] ∧ ¬ p ∈ acc then acc ++ [p] else acc
      | none => acc)
    []

/-- Transient-failure verbs of `_parse_failed_files` (pattern is `re.IGNORECASE`). -/
def transientVerbs : List Chars :=
  [str "couldn't move", str "failed to copy", str "error copying"]

/-- Transient-failure markers of `_parse_failed_files`. -/
def transientMarks : List Chars :=
  [str "eof", str "500", str "502", str "503", str "504", str "timeout",
   str "connection", str "invalidrequest"]

/-- Tail of the transient-failure pattern:
`\s*(?:Couldn't move|Failed to copy|error copying).*(?:EOF|500|...)`, case-insensitive. -/
def failTailOK (t : Chars) : Bool :=
  let t1 := t.dropWhile isPySpace
  transientVerbs.any (fun v =>
    hasPre v (lowerChars t1) &&
      transientMarks.any (fun m => hasSub m (lowerChars (t1.drop v.length))))

/-- Try the transient-failure pattern at the head of the line (case-insensitive `ERROR`). -/
def failedFileAt (l : Chars) : Option Chars :=
  if hasPre (str "error") (lowerChars l) then
    match (l.drop 5).dropWhile isPySpace with
    | ':' :: t => (lazyColon failTailOK [] (t.dropWhile isPySpace)).map pyStrip
    | _ => none
  else none

/-- Leftmost match of the transient-failure pattern in a line. -/
def failedFileSearch : Chars → Option Chars
  | [] => none
  | c :: cs =>
    match failedFileAt (c :: cs) with
    | some t => some t
    | none => failedFileSearch cs

/-- `_parse_failed_files`: collect nonempty paths, deduplicated preserving first
occurrence (`if file_path and file_path not in failed_files`). -/
def parseFailedFiles (log : List Chars) : List Chars :=
  log.foldl
    (fun acc l =>
      match failedFileSearch l with
      | some p => if p ≠ [] ∧ ¬ p ∈ acc then acc ++ [p] else acc
      | none => acc)
    []

/-! ### Conflict-marker filenames (`resolve_remaining_conflicts`,
`_get_original_from_conflict`, lines 525-551)

The glob `*.conflict[0-9]*` matches any name containing `.conflict` followed by
a digit; the regex `(.+)\.conflict\d+$` strips a final `.conflict<digits>` with a
nonempty base.  Because `.conflict` ends in a non-digit, the `\d+` group is
forced to be exactly the maximal trailing digit run. -/

/-- Does `.conflict<digit>` occur at the head of the name? -/
def conflictMarkAt (l : Chars) : Bool :=
  hasPre (str ".conflict") l &&
    (match l.drop 9 with
     | d :: _ => d.isDigit
     | [] => false)

/-- Does the name match the rglob pattern `*.conflict[0-9]*`? -/
def isConflictName : Chars → Bool
  | [] => false
  | c :: cs => conflictMarkAt (c :: cs) || isConflictName cs

/-- `_get_original_from_conflict`: strip a final `.conflict<digits>`; `none` when the
name does not match `(.+)\.conflict\d+$`. -/
def stripConflictSuffix (name : Chars) : Option Chars :=
  let rev := name.reverse
  let ds := rev.takeWhile Char.isDigit
  let rest := rev.dropWhile Char.isDigit
  if ds = [] then none
  else if hasPre (str ".conflict").reverse rest then
    if rest.length ≤ 9 then none else some (rest.drop 9).reverse
  else none

/-! ### pathlib `stem` / `suffix` on a file name -/

/-- Index of the last `.` in the name, when it yields a nonempty pathlib suffix
(`0 < i < len(name) - 1`); otherwise the name length (empty suffix). -/
def pySplitIdx (name : Chars) : Nat :=
  match name.reverse.findIdx? (fun c => c = '.') with
  | some j =>
    let i := name.length - 1 - j
    if 0 < i ∧ i + 1 < name.length then i else name.length
  | none => name.length

/-- pathlib `Path.stem` of a file name. -/
def pyStem (name : Chars) : Chars := name.take (pySplitIdx name)

/-- pathlib `Path.suffix` of a file name. -/
def pySuffix (name : Chars) : Chars := name.drop (pySplitIdx name)

/-! ### Local filesystem model and the conflict resolver
(`_resolve_single_conflict`, lines 553-644; `resolve_remaining_conflicts`, lines 525-541)

The local tree is an association list from file name to file data.  The model
is a single directory; the per-file logic of the resolver only ever looks at
the marker's own directory, so nothing is lost.  The remote side is an oracle
`Chars → Option Int` standing for the fresh `rclone lsjson` query
(`_get_remote_mtime`), and pushing local content to the remote
(`_copy_to_remote`, whose `Resolution` the resolver discards) is recorded as
an event. -/

/-- Data of one local file: modification time in nanoseconds plus an abstract
content token (so renames can be tracked). -/
structure FileData where
  mtime : Int
  content : Nat
deriving DecidableEq, Repr

/-- The local directory: file name to file data. -/
abbrev LocalFS := List (Chars × FileData)

/-- First-match lookup (file existence and `stat`). -/
def lookupFS : LocalFS → Chars → Option FileData
  | [], _ => none
  | (k, v) :: rest, q => if k = q then some v else lookupFS rest q

/-- `Path.unlink`: remove the entry with the given name. -/
def eraseFS (fs : LocalFS) (k : Chars) : LocalFS :=
  fs.filter (fun p => ¬ p.1 = k)

/-- `Path.rename`: move `src` to `dst`, overwriting any existing `dst` (POSIX). -/
def renameFS (fs : LocalFS) (src dst : Chars) : LocalFS :=
  match lookupFS fs src with
  | none => fs
  | some v => (fs.filter (fun p => ¬ p.1 = src ∧ ¬ p.1 = dst)) ++ [(dst, v)]

/-- Observable side effects of the manager, used to state frame/effect properties. -/
inductive Event where
  | bisyncStart (resync : Bool)
  | lockCleanup
  | lockDeleted
  | lockWarn
  | sleep (secs : Nat)
  | fileRetry (path : Chars)
  | directCopy (path : Chars)
  | pushRemote (path : Chars)
  | skipWarn (path : Chars)
deriving DecidableEq, Repr

/-- Outcome of resolving one conflict (`Resolution` dataclass). -/
structure Resolution where
  path : Chars
  action : Chars
  message : Chars
deriving DecidableEq, Repr

/-- Result of `_resolve_single_conflict` on the filesystem model. -/
structure ResolveOut where
  fs : LocalFS
  res : Option Resolution
  events : List Event
deriving DecidableEq, Repr

/-- Decimal rendering of an integer (Python f-string interpolation of an int). -/
def intChars (i : Int) : Chars := (toString i).data

/-- The `<stem>.local-<date><ext>` name of the equal-timestamp branch. -/
def keptBothLocalName (orig date : Chars) : Chars :=
  pyStem orig ++ str ".local-" ++ date ++ pySuffix orig

/-- The `<stem>.remote-<date><ext>` name of the equal-timestamp branch. -/
def keptBothRemoteName (orig date : Chars) : Chars :=
  pyStem orig ++ str ".remote-" ++ date ++ pySuffix orig

/-- `_resolve_single_conflict`.  Skip cases return `res = none` exactly as the source
returns `None`; the `except` branch is reachable in the model only when a file
operation targets a marker that an earlier resolution removed, and then it yields the
`action="error"` record of the source with the partial mutation that preceded the
failure. -/
def resolveSingleConflict (dryRun : Bool) (remote : Chars → Option Int) (date : Chars)
    (fs : LocalFS) (marker : Chars) : ResolveOut :=
  match stripConflictSuffix marker with
  | none => ⟨fs, none, [Event.skipWarn marker]⟩
  | some orig =>
    match lookupFS fs orig with
    | none => ⟨fs, none, [Event.skipWarn orig]⟩
    | some origData =>
      match remote orig with
      | none => ⟨fs, none, [Event.skipWarn orig]⟩
      | some remoteM =>
        if dryRun then
          if origData.mtime > remoteM then
            ⟨fs, some ⟨orig, str "would_keep_local",
              str "Local is newer (" ++ intChars origData.mtime ++ str " > " ++
                intChars remoteM ++ str ")"⟩, []⟩
          else if remoteM > origData.mtime then
            ⟨fs, some ⟨orig, str "would_keep_remote",
              str "Remote is newer (" ++ intChars remoteM ++ str " > " ++
                intChars origData.mtime ++ str ")"⟩, []⟩
          else
            ⟨fs, some ⟨orig, str "would_keep_both",
              str "Timestamps equal, would keep both files"⟩, []⟩
        else
          if origData.mtime > remoteM then
            match lookupFS fs marker with
            | none => ⟨fs, some ⟨marker, str "error", str "file not found"⟩, []⟩
            | some _ =>
              ⟨eraseFS fs marker, some ⟨orig, str "kept_local",
                str "Local is newer, pushed to remote (" ++ intChars origData.mtime ++
                  str " > " ++ intChars remoteM ++ str ")"⟩, [Event.pushRemote orig]⟩
          else if remoteM > origData.mtime then
            match lookupFS (eraseFS fs orig) marker with
            | none => ⟨eraseFS fs orig, some ⟨marker, str "error", str "file not found"⟩, []⟩
            | some _ =>
              ⟨renameFS (eraseFS fs orig) marker orig, some ⟨orig, str "kept_remote",
                str "Remote is newer, replaced local (" ++ intChars remoteM ++
                  str " > " ++ intChars origData.mtime ++ str ")"⟩, []⟩
          else
            match lookupFS (renameFS fs orig (keptBothLocalName orig date)) marker with
            | none =>
              ⟨renameFS fs orig (keptBothLocalName orig date),
                some ⟨marker, str "error", str "file not found"⟩, []⟩
            | some _ =>
              ⟨renameFS (renameFS fs orig (keptBothLocalName orig date)) marker
                  (keptBothRemoteName orig date),
                some ⟨orig, str "kept_both",
                  str "Timestamps equal, renamed to " ++ keptBothLocalName orig date ++
                    str " and " ++ keptBothRemoteName orig date⟩, []⟩

/-- The precomputed list `list(self.config.local_path.rglob("*.conflict[0-9]*"))`. -/
def conflictFilesOf (fs : LocalFS) : List Chars :=
  (fs.map Prod.fst).filter isConflictName

/-- The loop body of `resolve_remaining_conflicts` over a precomputed marker list,
threading the filesystem and appending each non-`None` resolution. -/
def resolvePassAux (dryRun : Bool) (remote : Chars → Option Int) (date : Chars)
    (interrupted : Bool) : LocalFS → List Chars → LocalFS × List Resolution × List Event
  | fs, [] => (fs, [], [])
  | fs, m :: ms =>
    if interrupted then (fs, [], [])
    else
      match resolveSingleConflict dryRun remote date fs m with
      | ⟨fs1, r, evs⟩ =>
        match resolvePassAux dryRun remote date interrupted fs1 ms with
        | (fs2, rs, evs2) =>
          (fs2, (match r with | some x => x :: rs | none => rs), evs ++ evs2)

/-- `resolve_remaining_conflicts`. -/
def resolveRemainingConflicts (dryRun : Bool) (remote : Chars → Option Int) (date : Chars)
    (interrupted : Bool) (fs : LocalFS) : LocalFS × List Resolution × List Event :=
  resolvePassAux dryRun remote date interrupted fs (conflictFilesOf fs)

/-! ### The retry controller (`run_bisync`, lines 164-252; `run_sync_with_retry`,
lines 254-364; `_is_retryable_error`, lines 366-378; `_cleanup_lock_file`,
lines 131-139)

One `run_bisync` call is one interaction with the environment: the subprocess
either runs and leaves an exit code and a log file, or raising at launch is
caught and turned into `SyncResult(exit_code=1, errors=[str(e)])`.  The lock
file's existence and whether its deletion raises are also environmental.  All
`_check_transfers_completed` / `_parse_*` calls read `self.log_file`, i.e. the
log content current after the most recent attempt, which the loop threads
explicitly (a launch failure leaves the previous content in place). -/

/-- Aggregate result of one run (`SyncResult` dataclass). -/
structure SyncResult where
  exit_code : Int
  conflicts_found : List Chars
  conflicts_resolved : List Resolution
  errors : List Chars
deriving DecidableEq, Repr

/-- Environment of one `_cleanup_lock_file` call: does the lock file exist, and does
`unlink` raise. -/
structure LockEnv where
  present : Bool
  unlinkFails : Bool
deriving DecidableEq, Repr

/-- `_cleanup_lock_file`: check existence, attempt the deletion, catch and log a
failure.  It always returns normally. -/
def cleanupLockFile (le : LockEnv) : List Event :=
  Event.lockCleanup ::
    (if le.present then [if le.unlinkFails then Event.lockWarn else Event.lockDeleted] else [])

/-- Environment of one `run_bisync` call: either the subprocess ran (exit code, log
file content afterwards, and the resolutions `resolve_remaining_conflicts` returns on
the post-attempt tree — the subprocess itself mutates the tree, so those are
environmental here), or launching it raised with the given message. -/
inductive BisyncOutcome where
  | ran (exitCode : Int) (log : List Chars) (resolutions : List Resolution) (lock : LockEnv)
  | launchFailure (msg : Chars) (lock : LockEnv)
deriving DecidableEq, Repr

/-- The `SyncResult` that `run_bisync` returns for an outcome: a launch failure is
caught and reported as exit code 1 with the exception message as the only error;
otherwise conflicts and errors are parsed from the log, and remaining conflicts are
resolved only for exit codes 0 and 1. -/
def bisyncResultOf : BisyncOutcome → SyncResult
  | BisyncOutcome.launchFailure msg _ => ⟨1, [], [], [msg]⟩
  | BisyncOutcome.ran code log res _ =>
    ⟨code, conflictsOfLog log, if code = 0 ∨ code = 1 then res else [], errorsOfLog log⟩

/-- Lock environment carried by an outcome. -/
def lockOf : BisyncOutcome → LockEnv
  | BisyncOutcome.ran _ _ _ le => le
  | BisyncOutcome.launchFailure _ le => le

/-- Replace the lock environment of an outcome (everything else unchanged). -/
def setLockEnv : BisyncOutcome → LockEnv → BisyncOutcome
  | BisyncOutcome.ran code log res _, le => BisyncOutcome.ran code log res le
  | BisyncOutcome.launchFailure msg _, le => BisyncOutcome.launchFailure msg le

/-- Events of one `run_bisync` call: the subprocess attempt, then the `finally:`
lock-file cleanup — on the normal path and on the exception path alike. -/
def attemptEvents (resync : Bool) (o : BisyncOutcome) : List Event :=
  Event.bisyncStart resync :: cleanupLockFile (lockOf o)

/-- `self.log_file` content after a `run_bisync` call (a launch failure leaves the
previous content). -/
def logAfter (curLog : List Chars) : BisyncOutcome → List Chars
  | BisyncOutcome.ran _ log _ _ => log
  | BisyncOutcome.launchFailure _ _ => curLog

/-- `run_bisync` as one step: result, observable events, and the log content
afterwards. -/
def runBisyncModel (resync : Bool) (curLog : List Chars) (o : BisyncOutcome) :
    SyncResult × List Event × List Chars :=
  (bisyncResultOf o, attemptEvents resync o, logAfter curLog o)

/-- The phrase `_is_retryable_error` looks for in lowercased error messages. -/
def retryPhrase : Chars := str "retryable without --resync"

/-- `_is_retryable_error`: exit code 1, or exit code 7 with the phrase in some
error message (checked against the lowercased message). -/
def isRetryableError (r : SyncResult) : Bool :=
  if r.exit_code = 1 then true
  else if r.exit_code = 7 then r.errors.any (fun e => hasSub retryPhrase (lowerChars e))
  else false

/-- `_retry_with_direct_copy`: one `_sync_single_file` subprocess per path, in order;
with the cancellation flag set the loop breaks before the first file. -/
def directCopyTrace (interrupted : Bool) (files : List Chars) : List Event :=
  if interrupted then [] else files.map (fun f => Event.directCopy f)

/-- `_retry_failed_transfers` events: one `_sync_single_file` call per path. -/
def fileRetryTrace (interrupted : Bool) (files : List Chars) : List Event :=
  if interrupted then [] else files.map (fun f => Event.fileRetry f)

/-- `_retry_failed_transfers` results, with `_sync_single_file` as an environment
oracle (it runs subprocesses against both replicas). -/
def retryFailedTransfersModel (interrupted : Bool) (ss : Chars → Resolution)
    (files : List Chars) : List Resolution :=
  if interrupted then [] else files.map ss

/-- `run_sync_with_retry`.  `attempt` is the counter before entering the iteration;
each iteration consumes the next `BisyncOutcome` from the environment list, and the
model answers `none` only when that list is exhausted.  The exit-code-7 recovery
branch mutates `config.resync` around a nested `run_bisync` and restores it before
returning, so the flag threads as a plain parameter. -/
def runSyncLoop (interrupted : Bool) (ss : Chars → Resolution) (resync : Bool)
    (maxRetries delay : Nat) :
    List BisyncOutcome → List Chars → Nat → Option (SyncResult × List Event)
  | [], _, _ => none
  | o :: rest, curLog, attempt =>
    if (bisyncResultOf o).exit_code = 0 then
      some (bisyncResultOf o, attemptEvents resync o)
    else if (bisyncResultOf o).exit_code = 7 ∧ resync = false then
      if checkTransfersCompleted (logAfter curLog o) then
        match rest with
        | [] => none
        | o2 :: _ =>
          some (bisyncResultOf o2,
            attemptEvents resync o ++ attemptEvents true o2 ++
              directCopyTrace interrupted
                (parseCopyFailures (logAfter (logAfter curLog o) o2)))
      else if parseFailedFiles (logAfter curLog o) = [] then
        if isRetryableError (bisyncResultOf o) = false then
          some (bisyncResultOf o,
            attemptEvents resync o ++
              directCopyTrace interrupted (parseCopyFailures (logAfter curLog o)))
        else if 0 < maxRetries ∧ maxRetries ≤ attempt + 1 then
          some (bisyncResultOf o, attemptEvents resync o)
        else if interrupted = true then
          some (bisyncResultOf o, attemptEvents resync o)
        else
          match runSyncLoop interrupted ss resync maxRetries delay rest
              (logAfter curLog o) (attempt + 1) with
          | none => none
          | some pr =>
            some (pr.1, attemptEvents resync o ++ Event.sleep delay :: pr.2)
      else if (retryFailedTransfersModel interrupted ss
            (parseFailedFiles (logAfter curLog o))).filter
            (fun r => r.action = str "error") = [] then
        match rest with
        | [] => none
        | o2 :: _ =>
          some (bisyncResultOf o2,
            attemptEvents resync o ++
              fileRetryTrace interrupted (parseFailedFiles (logAfter curLog o)) ++
              attemptEvents true o2 ++
              directCopyTrace interrupted
                (parseCopyFailures (logAfter (logAfter curLog o) o2)))
      else
        some (bisyncResultOf o,
          attemptEvents resync o ++
            fileRetryTrace interrupted (parseFailedFiles (logAfter curLog o)))
    else
      if isRetryableError (bisyncResultOf o) = false then
        some (bisyncResultOf o,
          attemptEvents resync o ++
            directCopyTrace interrupted (parseCopyFailures (logAfter curLog o)))
      else if 0 < maxRetries ∧ maxRetries ≤ attempt + 1 then
        some (bisyncResultOf o, attemptEvents resync o)
      else if interrupted = true then
        some (bisyncResultOf o, attemptEvents resync o)
      else
        match runSyncLoop interrupted ss resync maxRetries delay rest
            (logAfter curLog o) (attempt + 1) with
        | none => none
        | some pr =>
          some (pr.1, attemptEvents resync o ++ Event.sleep delay :: pr.2)

/-- Last element of an outcome list (the final attempt of a run). -/
def lastOf : List BisyncOutcome → Option BisyncOutcome
  | [] => none
  | [o] => some o
  | _ :: o2 :: rest => lastOf (o2 :: rest)

/-- Expected event trace of an all-retryable run: the attempts' own events with one
fixed-delay sleep between consecutive attempts. -/
def retryTrace (d : Nat) : List BisyncOutcome → List Event
  | [] => []
  | [o] => attemptEvents false o
  | o :: o2 :: rest => attemptEvents false o ++ Event.sleep d :: retryTrace d (o2 :: rest)

/-- Event classifier: a subprocess sync attempt. -/
def isAttemptStart : Event → Bool
  | Event.bisyncStart _ => true
  | _ => false

/-- Event classifier: a forced-resync sync attempt. -/
def isResyncStart : Event → Bool
  | Event.bisyncStart true => true
  | _ => false

/-- Event classifier: a retry-delay sleep. -/
def isSleepEv : Event → Bool
  | Event.sleep _ => true
  | _ => false

/-- Event classifier: an individual-file retry (`_retry_failed_transfers`). -/
def isFileRetryEv : Event → Bool
  | Event.fileRetry _ => true
  | _ => false

/-! ### Concrete data used by witnesses and counterexamples -/

/-- A lock environment where no lock file is present. -/
def lockQuiet : LockEnv := ⟨false, false⟩

/-- A concrete `_sync_single_file` oracle for witnesses. -/
def ssW : Chars → Resolution := fun p => ⟨p, str "pushed", str "Copied to remote (local is newer)"⟩

/-- A log line whose error message is `boom`. -/
def dupLine : Chars := str "2026/02/03 04:05:06 ERROR : boom"

/-- The `FileIssue` produced for `dupLine`. -/
def dupIssue : FileIssue := ⟨[], str "error", str "boom", none, none⟩

/-- A date suffix used by concrete resolver runs. -/
def dateW : Chars := str "20261012"

/-- A marker file whose original is missing (skip case of the resolver). -/
def fsOrphan : LocalFS := [(str "a.txt.conflict1", ⟨100, 0⟩)]

/-- A remote oracle that knows no path. -/
def remoteNone : Chars → Option Int := fun _ => none

/-- Local tree whose original file is itself named like a conflict marker:
`x.conflict1` exists and carries the conflict marker `x.conflict1.conflict2`. -/
def fsNested : LocalFS :=
  [(str "x.conflict1", ⟨100, 1⟩), (str "x.conflict1.conflict2", ⟨200, 2⟩)]

/-- Remote oracle for `fsNested`: the original `x.conflict1` has the same mtime locally
and remotely. -/
def remoteNested : Chars → Option Int :=
  fun s => if s = str "x.conflict1" then some 100 else none

/-- An ordinary conflict pair: `doc.txt` plus its marker, local strictly newer. -/
def fsDoc : LocalFS := [(str "doc.txt", ⟨200, 1⟩), (str "doc.txt.conflict1", ⟨150, 2⟩)]

/-- Remote oracle for `fsDoc`: remote mtime 100. -/
def remoteDoc : Chars → Option Int := fun s => if s = str "doc.txt" then some 100 else none

/-- An ordinary conflict pair with equal local and remote mtimes. -/
def fsDocEq : LocalFS := [(str "doc.txt", ⟨100, 1⟩), (str "doc.txt.conflict1", ⟨100, 2⟩)]

/-- Remote oracle with remote mtime 100 for `doc.txt`. -/
def remoteDocEq : Chars → Option Int := fun s => if s = str "doc.txt" then some 100 else none

/-- An ordinary conflict pair, remote strictly newer. -/
def fsDocOld : LocalFS := [(str "doc.txt", ⟨50, 1⟩), (str "doc.txt.conflict1", ⟨150, 2⟩)]

/-- A log showing 100% transfer completion together with a metadata-update error. -/
def logMeta : List Chars :=
  [str "Transferred:          312 / 312, 100%",
   str "2026/02/03 04:05:06 ERROR : dir: Failed to update directory timestamp or metadata"]

/-- An exit-code-7 attempt whose log shows completed transfers with metadata errors. -/
def attempt7Meta : BisyncOutcome := BisyncOutcome.ran 7 logMeta [] lockQuiet

/-- A clean successful attempt. -/
def attemptOk : BisyncOutcome := BisyncOutcome.ran 0 [] [] lockQuiet

/-- A retryable (exit code 1) attempt with an empty log. -/
def attempt1 : BisyncOutcome := BisyncOutcome.ran 1 [] [] lockQuiet

/-- A fatal usage-error attempt (exit code 2). -/
def attempt2 : BisyncOutcome := BisyncOutcome.ran 2 [] [] lockQuiet

/-! ### Lemmas about the filesystem operations -/

theorem lookupFS_filter_no (fs : LocalFS) (f : Chars × FileData → Bool) (q : Chars)
    (h : ∀ v, f (q, v) = false) : lookupFS (fs.filter f) q = none := by
  induction fs with
  | nil => rfl
  | cons p rest ih =>
    obtain ⟨k, v⟩ := p
    rw [List.filter_cons]
    by_cases hf : f (k, v) = true
    · rw [if_pos hf]
      have hk : ¬ k = q := by
        intro hkq
        subst hkq
        rw [h v] at hf
        exact Bool.false_ne_true hf
      simpa [lookupFS, hk] using ih
    · rw [if_neg hf]
      exact ih

theorem lookupFS_filter_yes (fs : LocalFS) (f : Chars × FileData → Bool) (q : Chars)
    (h : ∀ v, f (q, v) = true) : lookupFS (fs.filter f) q = lookupFS fs q := by
  induction fs with
  | nil => rfl
  | cons p rest ih =>
    obtain ⟨k, v⟩ := p
    rw [List.filter_cons]
    by_cases hk : k = q
    · subst hk
      rw [if_pos (h v)]
      simp [lookupFS]
    · by_cases hf : f (k, v) = true
      · rw [if_pos hf]
        simpa [lookupFS, hk] using ih
      · rw [if_neg hf]
        simpa [lookupFS, hk] using ih

theorem lookupFS_append (l1 l2 : LocalFS) (q : Chars) :
    lookupFS (l1 ++ l2) q =
      match lookupFS l1 q with
      | some v => some v
      | none => lookupFS l2 q := by
  induction l1 with
  | nil => rfl
  | cons p rest ih =>
    obtain ⟨k, v⟩ := p
    by_cases hk : k = q
    · simp [lookupFS, hk]
    · simpa [lookupFS, hk] using ih

theorem lookupFS_eraseFS_self (fs : LocalFS) (k : Chars) :
    lookupFS (eraseFS fs k) k = none := by
  apply lookupFS_filter_no
  intro v
  simp

theorem lookupFS_eraseFS_ne (fs : LocalFS) {q k : Chars} (h : ¬ q = k) :
    lookupFS (eraseFS fs k) q = lookupFS fs q := by
  apply lookupFS_filter_yes
  intro v
  simp [h]

theorem lookupFS_renameFS_dst (fs : LocalFS) (src dst : Chars) (v : FileData)
    (h : lookupFS fs src = some v) :
    lookupFS (renameFS fs src dst) dst = some v := by
  unfold renameFS
  rw [h, lookupFS_append]
  rw [lookupFS_filter_no _ _ _ (by intro w; simp)]
  simp [lookupFS]

theorem lookupFS_renameFS_src (fs : LocalFS) {src dst : Chars} (h : ¬ src = dst) :
    lookupFS (renameFS fs src dst) src = none := by
  unfold renameFS
  cases hl : lookupFS fs src with
  | none => exact hl
  | some v =>
    rw [lookupFS_append]
    rw [lookupFS_filter_no _ _ _ (by intro w; simp)]
    simp only [lookupFS]
    rw [if_neg (fun hds : dst = src => h hds.symm)]

theorem lookupFS_renameFS_other (fs : LocalFS) {src dst q : Chars}
    (h1 : ¬ q = src) (h2 : ¬ q = dst) :
    lookupFS (renameFS fs src dst) q = lookupFS fs q := by
  unfold renameFS
  cases hl : lookupFS fs src with
  | none => rfl
  | some v =>
    rw [lookupFS_append]
    rw [lookupFS_filter_yes _ _ _ (by intro w; simp [h1, h2])]
    cases hq : lookupFS fs q with
    | some w => rfl
    | none =>
      simp only [lookupFS]
      rw [if_neg (fun hds : dst = q => h2 hds.symm)]

theorem lookupFS_mem_keys {fs : LocalFS} {q : Chars} {v : FileData}
    (h : lookupFS fs q = some v) : q ∈ fs.map Prod.fst := by
  induction fs with
  | nil => exact Option.noConfusion h
  | cons p rest ih =>
    obtain ⟨k, w⟩ := p
    rw [List.map_cons]
    by_cases hk : k = q
    · exact List.mem_cons.mpr (Or.inl hk.symm)
    · simp only [lookupFS, if_neg hk] at h
      exact List.mem_cons.mpr (Or.inr (ih h))

theorem mem_keys_renameFS {fs : LocalFS} {src dst k : Chars}
    (h : k ∈ (renameFS fs src dst).map Prod.fst) :
    k ∈ fs.map Prod.fst ∨ k = dst := by
  unfold renameFS at h
  cases hl : lookupFS fs src with
  | none => rw [hl] at h; exact Or.inl h
  | some v =>
    rw [hl, List.map_append, List.mem_append] at h
    rcases h with h | h
    · rcases List.mem_map.mp h with ⟨p, hp, hpk⟩
      exact Or.inl (List.mem_map.mpr ⟨p, (List.mem_filter.mp hp).1, hpk⟩)
    · simp at h
      exact Or.inr h

theorem not_mem_keys_renameFS_src {fs : LocalFS} {src dst : Chars} {v : FileData}
    (hv : lookupFS fs src = some v) (h : ¬ src = dst) :
    ¬ src ∈ (renameFS fs src dst).map Prod.fst := by
  unfold renameFS
  rw [hv, List.map_append, List.mem_append]
  rintro (hm | hm)
  · rcases List.mem_map.mp hm with ⟨p, hp, hpk⟩
    have := (List.mem_filter.mp hp).2
    rw [hpk] at this
    simp at this
  · simp at hm
    exact h hm

/-! ### Lemmas about marker names -/

theorem hasPre_take {p : Chars} : ∀ {l : Chars}, hasPre p l = true → l.take p.length = p := by
  induction p with
  | nil => intro l _; rfl
  | cons c cs ih =>
    intro l h
    cases l with
    | nil => exact absurd h (by simp [hasPre])
    | cons d ds =>
      simp only [hasPre, Bool.and_eq_true, decide_eq_true_eq] at h
      simp [List.take, h.1.symm, ih h.2]

theorem hasPre_append_self (p rest : Chars) : hasPre p (p ++ rest) = true := by
  induction p with
  | nil => rfl
  | cons c cs ih => simp [hasPre, ih]

/-- Structure of a name accepted by `_get_original_from_conflict`: it is the base
followed by `.conflict` and a nonempty digit run. -/
theorem stripConflictSuffix_eq {name base : Chars}
    (h : stripConflictSuffix name = some base) :
    ∃ ds, name = base ++ str ".conflict" ++ ds ∧ ds ≠ [] ∧ ∀ c ∈ ds, c.isDigit = true := by
  unfold stripConflictSuffix at h
  by_cases hds : name.reverse.takeWhile Char.isDigit = []
  · simp [hds] at h
  · rw [if_neg hds] at h
    by_cases hpre : hasPre (str ".conflict").reverse (name.reverse.dropWhile Char.isDigit) = true
    · rw [if_pos hpre] at h
      by_cases hlen : (name.reverse.dropWhile Char.isDigit).length ≤ 9
      · simp [hlen] at h
      · rw [if_neg hlen] at h
        have hbase : base = ((name.reverse.dropWhile Char.isDigit).drop 9).reverse :=
          (Option.some_inj.mp h).symm
        refine ⟨(name.reverse.takeWhile Char.isDigit).reverse, ?_, by simpa using hds, ?_⟩
        · have hsplit : name.reverse.dropWhile Char.isDigit =
              (str ".conflict").reverse ++ (name.reverse.dropWhile Char.isDigit).drop 9 := by
            have h9 : (str ".conflict").reverse.length = 9 := rfl
            calc name.reverse.dropWhile Char.isDigit
                = (name.reverse.dropWhile Char.isDigit).take 9 ++
                    (name.reverse.dropWhile Char.isDigit).drop 9 :=
                  (List.take_append_drop 9 _).symm
              _ = (str ".conflict").reverse ++ (name.reverse.dropWhile Char.isDigit).drop 9 := by
                  rw [show ((name.reverse.dropWhile Char.isDigit).take 9 : Chars)
                        = (name.reverse.dropWhile Char.isDigit).take
                            (str ".conflict").reverse.length from by rw [h9],
                      hasPre_take hpre]
          have hrev : name.reverse =
              name.reverse.takeWhile Char.isDigit ++ name.reverse.dropWhile Char.isDigit :=
            (List.takeWhile_append_dropWhile Char.isDigit name.reverse).symm
          calc name = name.reverse.reverse := (List.reverse_reverse name).symm
            _ = (name.reverse.takeWhile Char.isDigit ++
                  name.reverse.dropWhile Char.isDigit).reverse := by rw [← hrev]
            _ = (name.reverse.dropWhile Char.isDigit).reverse ++
                  (name.reverse.takeWhile Char.isDigit).reverse := by
                rw [List.reverse_append]
            _ = ((str ".conflict").reverse ++
                    (name.reverse.dropWhile Char.isDigit).drop 9).reverse ++
                  (name.reverse.takeWhile Char.isDigit).reverse := by rw [← hsplit]
            _ = base ++ str ".conflict" ++ (name.reverse.takeWhile Char.isDigit).reverse := by
                rw [List.reverse_append, List.reverse_reverse, hbase]
        · intro c hc
          exact List.mem_takeWhile_imp (List.mem_reverse.mp hc)
    · simp [hpre] at h

theorem stripConflictSuffix_length {name base : Chars}
    (h : stripConflictSuffix name = some base) : base.length < name.length := by
  rcases stripConflictSuffix_eq h with ⟨ds, hname, hds, _⟩
  rw [hname]
  simp only [List.length_append]
  have : 0 < ds.length := List.length_pos.mpr hds
  have h9 : (str ".conflict").length = 9 := rfl
  omega

theorem stripConflictSuffix_ne {name base : Chars}
    (h : stripConflictSuffix name = some base) : ¬ name = base := by
  intro he
  have := stripConflictSuffix_length h
  rw [he] at this
  omega

theorem isConflictName_append_right {l : Chars} (a : Chars)
    (h : isConflictName l = true) : isConflictName (a ++ l) = true := by
  induction a with
  | nil => exact h
  | cons c cs ih => simp [isConflictName, ih]

theorem isConflictName_of_strip {name base : Chars}
    (h : stripConflictSuffix name = some base) : isConflictName name = true := by
  rcases stripConflictSuffix_eq h with ⟨ds, hname, hds, hdig⟩
  cases ds with
  | nil => exact absurd rfl hds
  | cons d ds' =>
    rw [hname, List.append_assoc]
    apply isConflictName_append_right
    have hd : d.isDigit = true := hdig d (by simp)
    cases hcc : (str ".conflict" ++ d :: ds' : Chars) with
    | nil => simp [str] at hcc
    | cons x xs =>
      rw [← hcc]
      have hmark : conflictMarkAt (str ".conflict" ++ d :: ds') = true := by
        unfold conflictMarkAt
        rw [hasPre_append_self]
        have hdrop : ((str ".conflict" ++ d :: ds' : Chars).drop 9) = d :: ds' := by
          have h9 : (str ".conflict").length = 9 := rfl
          rw [← h9, List.drop_left]
        rw [hdrop]
        simpa using hd
      rw [hcc] at hmark ⊢
      simp [isConflictName, hmark]

/-- pathlib: `stem + suffix` is the whole name. -/
theorem pyStem_append_pySuffix (name : Chars) : pyStem name ++ pySuffix name = name :=
  List.take_append_drop _ name

/-- C1: for a conflict marker whose original exists and whose remote mtime is
obtainable, outside dry-run: if the local mtime is strictly greater, the resolver
deletes the marker, leaves the original untouched, pushes the local content to the
remote, and records `kept_local`; if the remote mtime is strictly greater, it deletes
the original, renames the marker (holding remote content) to the original's place, and
records `kept_remote`. -/
theorem c1_mtime_comparison_resolves
    (remote : Chars → Option Int) (date : Chars) (fs : LocalFS)
    (marker orig : Chars) (fo fm : FileData) (rm : Int)
    (hs : stripConflictSuffix marker = some orig)
    (ho : lookupFS fs orig = some fo)
    (hm : lookupFS fs marker = some fm)
    (hr : remote orig = some rm) :
    (fo.mtime > rm →
      resolveSingleConflict false remote date fs marker =
        ⟨eraseFS fs marker,
         some ⟨orig, str "kept_local",
           str "Local is newer, pushed to remote (" ++ intChars fo.mtime ++ str " > " ++
             intChars rm ++ str ")"⟩,
         [Event.pushRemote orig]⟩ ∧
      lookupFS (eraseFS fs marker) orig = some fo ∧
      lookupFS (eraseFS fs marker) marker = none) ∧
    (rm > fo.mtime →
      resolveSingleConflict false remote date fs marker =
        ⟨renameFS (eraseFS fs orig) marker orig,
         some ⟨orig, str "kept_remote",
           str "Remote is newer, replaced local (" ++ intChars rm ++ str " > " ++
             intChars fo.mtime ++ str ")"⟩,
         []⟩ ∧
      lookupFS (renameFS (eraseFS fs orig) marker orig) orig = some fm ∧
      lookupFS (renameFS (eraseFS fs orig) marker orig) marker = none) := by
  have hne : ¬ marker = orig := stripConflictSuffix_ne hs
  constructor
  · intro hgt
    refine ⟨?_, ?_, ?_⟩
    · unfold resolveSingleConflict
      simp only [hs, ho, hr, hm]
      simp [hgt]
    · exact lookupFS_eraseFS_ne fs (fun h : orig = marker => hne h.symm) ▸ ho
    · exact lookupFS_eraseFS_self fs marker
  · intro hlt
    have hmm : lookupFS (eraseFS fs orig) marker = some fm :=
      (lookupFS_eraseFS_ne fs hne).trans hm
    refine ⟨?_, ?_, ?_⟩
    · unfold resolveSingleConflict
      simp only [hs, ho, hr, hmm]
      have hngt : ¬ fo.mtime > rm := by omega
      simp [hngt, hlt]
    · exact lookupFS_renameFS_dst _ _ _ _ hmm
    · exact lookupFS_renameFS_src _ hne

/-- Witness for C1 at a concrete conflict: `doc.txt` (mtime 200) against remote mtime
100 with marker `doc.txt.conflict1`. -/
theorem c1_witness :
    resolveSingleConflict false remoteDoc dateW fsDoc (str "doc.txt.conflict1") =
      ⟨eraseFS fsDoc (str "doc.txt.conflict1"),
       some ⟨str "doc.txt", str "kept_local",
         str "Local is newer, pushed to remote (" ++ intChars (FileData.mk 200 1).mtime ++
           str " > " ++ intChars (100 : Int) ++ str ")"⟩,
       [Event.pushRemote (str "doc.txt")]⟩ :=
  ((c1_mtime_comparison_resolves remoteDoc dateW fsDoc (str "doc.txt.conflict1")
      (str "doc.txt") ⟨200, 1⟩ ⟨150, 2⟩ 100 (by decide) (by decide) (by decide)
      (by decide)).1 (by decide)).1

/-- In dry-run mode a single resolution never touches the filesystem. -/
theorem resolveSingleConflict_dryRun_fs (remote : Chars → Option Int) (date : Chars)
    (fs : LocalFS) (m : Chars) :
    (resolveSingleConflict true remote date fs m).fs = fs := by
  cases hsc : stripConflictSuffix m with
  | none => simp [resolveSingleConflict, hsc]
  | some orig =>
    cases hlo : lookupFS fs orig with
    | none => simp [resolveSingleConflict, hsc, hlo]
    | some fo =>
      cases hre : remote orig with
      | none => simp [resolveSingleConflict, hsc, hlo, hre]
      | some rm =>
        by_cases h1 : fo.mtime > rm
        · simp [resolveSingleConflict, hsc, hlo, hre, h1]
        · by_cases h2 : rm > fo.mtime
          · simp [resolveSingleConflict, hsc, hlo, hre, h1, h2]
          · simp [resolveSingleConflict, hsc, hlo, hre, h1, h2]

/-- In dry-run mode the whole resolution pass never touches the filesystem. -/
theorem resolvePassAux_dryRun_fs (remote : Chars → Option Int) (date : Chars)
    (i : Bool) : ∀ (ms : List Chars) (fs : LocalFS),
    (resolvePassAux true remote date i fs ms).1 = fs := by
  intro ms
  induction ms with
  | nil => intro fs; rfl
  | cons m rest ih =>
    intro fs
    unfold resolvePassAux
    by_cases hi : i = true
    · simp [hi]
    · simp only [if_neg hi]
      cases hout : resolveSingleConflict true remote date fs m with
      | mk fs1 r evs =>
        have hfs1 : fs1 = fs := by
          have := resolveSingleConflict_dryRun_fs remote date fs m
          rw [hout] at this
          exact this
        cases hpass : resolvePassAux true remote date i fs1 rest with
        | mk fs2 rest2 =>
          have hfs2 : fs2 = fs1 := by
            have := ih fs1
            rw [hpass] at this
            exact this
          simp [hfs2, hfs1]

/-- C3: dry-run conflict resolution makes no filesystem change — the post-state of a
single resolution and of the whole pass equal the pre-state for every input — while
performing the same timestamp comparison as the real mode, returning
`would_keep_local` when local is strictly newer, `would_keep_remote` when remote is
strictly newer, and `would_keep_both` when the timestamps are equal. -/
theorem c3_dry_run_pure_same_comparison :
    (∀ (remote : Chars → Option Int) (date : Chars) (fs : LocalFS) (m : Chars),
      (resolveSingleConflict true remote date fs m).fs = fs) ∧
    (∀ (remote : Chars → Option Int) (date : Chars) (i : Bool) (fs : LocalFS),
      (resolveRemainingConflicts true remote date i fs).1 = fs) ∧
    (∀ (remote : Chars → Option Int) (date : Chars) (fs : LocalFS) (m orig : Chars)
       (fo : FileData) (rm : Int),
      stripConflictSuffix m = some orig →
      lookupFS fs orig = some fo →
      remote orig = some rm →
      ((resolveSingleConflict true remote date fs m).res).map (fun r => r.action) =
        some (if fo.mtime > rm then str "would_keep_local"
          else if rm > fo.mtime then str "would_keep_remote"
          else str "would_keep_both")) := by
  refine ⟨resolveSingleConflict_dryRun_fs, ?_, ?_⟩
  · intro remote date i fs
    exact resolvePassAux_dryRun_fs remote date i (conflictFilesOf fs) fs
  · intro remote date fs m orig fo rm hs ho hr
    by_cases h1 : fo.mtime > rm
    · simp [resolveSingleConflict, hs, ho, hr, h1]
    · by_cases h2 : rm > fo.mtime
      · simp [resolveSingleConflict, hs, ho, hr, h1, h2]
      · simp [resolveSingleConflict, hs, ho, hr, h1, h2]

/-- Witness for C3 at a concrete dry run over `fsDoc`. -/
theorem c3_witness :
    (resolveSingleConflict true remoteDoc dateW fsDoc (str "doc.txt.conflict1")).fs = fsDoc ∧
    (resolveRemainingConflicts true remoteDoc dateW false fsDoc).1 = fsDoc ∧
    ((resolveSingleConflict true remoteDoc dateW fsDoc (str "doc.txt.conflict1")).res).map
        (fun r => r.action) =
      some (if (FileData.mk 200 1).mtime > (100 : Int) then str "would_keep_local"
        else if (100 : Int) > (FileData.mk 200 1).mtime then str "would_keep_remote"
        else str "would_keep_both") :=
  ⟨c3_dry_run_pure_same_comparison.1 remoteDoc dateW fsDoc _,
   c3_dry_run_pure_same_comparison.2.1 remoteDoc dateW false fsDoc,
   c3_dry_run_pure_same_comparison.2.2 remoteDoc dateW fsDoc (str "doc.txt.conflict1")
     (str "doc.txt") ⟨200, 1⟩ 100 (by decide) (by decide) (by decide)⟩

/-- C8 counterexample: a marker whose original file is missing is examined by the
resolver (it is in the conflict-file list) but `resolve_remaining_conflicts` records
no outcome at all — `_resolve_single_conflict` returns `None` for the skip cases and
the caller appends only non-`None` resolutions. -/
theorem c8_counterexample :
    conflictFilesOf fsOrphan = [str "a.txt.conflict1"] ∧
    (resolveRemainingConflicts false remoteNone dateW false fsOrphan).2.1 = [] := by
  constructor
  · decide
  · decide

/-- C8 amended: an outcome record is produced for every examined marker that reaches
the decision stage (dry-run, real resolution, or error), and for exactly those: the
resolver returns no record precisely in the three skip cases — marker name
unparseable, original file missing, or remote mtime unavailable. -/
theorem c8_record_iff_not_skipped
    (dryRun : Bool) (remote : Chars → Option Int) (date : Chars) (fs : LocalFS)
    (m : Chars) :
    (resolveSingleConflict dryRun remote date fs m).res = none ↔
      (stripConflictSuffix m = none ∨
       (∃ orig, stripConflictSuffix m = some orig ∧ lookupFS fs orig = none) ∨
       (∃ orig fo, stripConflictSuffix m = some orig ∧ lookupFS fs orig = some fo ∧
          remote orig = none)) := by
  cases hsc : stripConflictSuffix m with
  | none => simp [resolveSingleConflict, hsc]
  | some orig =>
    cases hlo : lookupFS fs orig with
    | none => simp [resolveSingleConflict, hsc, hlo]
    | some fo =>
      cases hre : remote orig with
      | none => simp [resolveSingleConflict, hsc, hlo, hre]
      | some rm =>
        have hres : ¬ (resolveSingleConflict dryRun remote date fs m).res = none := by
          cases dryRun with
          | true =>
            by_cases h1 : fo.mtime > rm
            · simp [resolveSingleConflict, hsc, hlo, hre, h1]
            · by_cases h2 : rm > fo.mtime
              · simp [resolveSingleConflict, hsc, hlo, hre, h1, h2]
              · simp [resolveSingleConflict, hsc, hlo, hre, h1, h2]
          | false =>
            by_cases h1 : fo.mtime > rm
            · cases hg : lookupFS fs m with
              | none => simp [resolveSingleConflict, hsc, hlo, hre, h1, hg]
              | some v => simp [resolveSingleConflict, hsc, hlo, hre, h1, hg]
            · by_cases h2 : rm > fo.mtime
              · cases hg : lookupFS (eraseFS fs orig) m with
                | none => simp [resolveSingleConflict, hsc, hlo, hre, h1, h2, hg]
                | some v => simp [resolveSingleConflict, hsc, hlo, hre, h1, h2, hg]
              · cases hg : lookupFS (renameFS fs orig (keptBothLocalName orig date)) m with
                | none => simp [resolveSingleConflict, hsc, hlo, hre, h1, h2, hg]
                | some v => simp [resolveSingleConflict, hsc, hlo, hre, h1, h2, hg]
        constructor
        · intro h
          exact absurd h hres
        · rintro (h | ⟨o, ho1, ho2⟩ | ⟨o, f, hx1, hx2, hx3⟩)
          · exact Option.noConfusion h
          · obtain rfl : orig = o := Option.some_inj.mp ho1
            rw [hlo] at ho2
            exact Option.noConfusion ho2
          · obtain rfl : orig = o := Option.some_inj.mp hx1
            rw [hre] at hx3
            exact Option.noConfusion hx3

/-- C7 counterexample: the digest's error list is NOT deduplicated — a log with one
error line repeated twice yields the same message twice. -/
theorem c7_counterexample :
    errorsOfLog [dupLine, dupLine] = [str "boom", str "boom"] ∧
    ¬ (errorsOfLog [dupLine, dupLine]).Nodup := by
  constructor
  · decide
  · decide

/-- A line classified as an error contributes its message at the head of the digest's
error list. -/
theorem errorsOfLog_cons_error {l : Chars} {i : FileIssue} (rest : List Chars)
    (hc : classifyLine l = some i) (ht : i.issue_type = str "error") :
    errorsOfLog (l :: rest) = i.message :: errorsOfLog rest := by
  unfold errorsOfLog parseRcloneOutput
  rw [List.filterMap_cons, hc]
  simp [ht]

/-- C7 amended: the digest's error list has one entry per error-matching line, in log
order, with duplicates retained — a line occurring N times contributes N equal
messages (`parse_rclone_output` performs no deduplication; only the failed-file and
copy-failure path parsers deduplicate). -/
theorem c7_error_list_entry_per_line :
    (∀ (a b : List Chars), errorsOfLog (a ++ b) = errorsOfLog a ++ errorsOfLog b) ∧
    (∀ (n : Nat) (l : Chars) (i : FileIssue),
      classifyLine l = some i → i.issue_type = str "error" →
      errorsOfLog (List.replicate n l) = List.replicate n i.message) := by
  constructor
  · intro a b
    unfold errorsOfLog parseRcloneOutput
    rw [List.filterMap_append, List.filter_append, List.map_append]
  · intro n l i hc ht
    induction n with
    | zero => rfl
    | succ k ih =>
      rw [List.replicate_succ, List.replicate_succ, errorsOfLog_cons_error _ hc ht, ih]

/-- Witness for C7 amended: the duplicated `boom` line contributes two entries. -/
theorem c7_witness :
    errorsOfLog (List.replicate 2 dupLine) = List.replicate 2 dupIssue.message :=
  c7_error_list_entry_per_line.2 2 dupLine dupIssue (by decide) (by decide)

/-- C9: after every sync attempt — normal subprocess exit or launch exception — the
`finally:` lock-file cleanup runs inside the attempt, before its result is handed
back; and whatever the lock environment (present or not, deletion raising or not),
the attempt still returns its result unchanged, so a failed deletion is logged but
never aborts the run. -/
theorem c9_lock_cleanup_every_attempt (resync : Bool) (curLog : List Chars)
    (o : BisyncOutcome) (le le' : LockEnv) :
    (runBisyncModel resync curLog (setLockEnv o le)).2.1 =
      Event.bisyncStart resync :: cleanupLockFile le ∧
    Event.lockCleanup ∈ (runBisyncModel resync curLog (setLockEnv o le)).2.1 ∧
    (runBisyncModel resync curLog (setLockEnv o le)).1 =
      (runBisyncModel resync curLog (setLockEnv o le')).1 := by
  refine ⟨?_, ?_, ?_⟩
  · cases o <;> rfl
  · cases o <;>
      exact List.mem_cons.mpr (Or.inr (List.mem_cons_self _ _))
  · cases o <;> rfl

/-- C10: a launch exception inside `run_bisync` is caught, not propagated: the result
is exit code 1 with the exception message as the only error; exit code 1 classifies
as retryable; and with budget remaining and no cancellation, the retry loop proceeds
to the next attempt after the configured delay instead of stopping. -/
theorem c10_launch_failure_is_retried :
    (∀ (resync : Bool) (curLog : List Chars) (msg : Chars) (le : LockEnv),
      runBisyncModel resync curLog (BisyncOutcome.launchFailure msg le) =
        (⟨1, [], [], [msg]⟩, Event.bisyncStart resync :: cleanupLockFile le, curLog)) ∧
    (∀ (msg : Chars) (le : LockEnv),
      isRetryableError (bisyncResultOf (BisyncOutcome.launchFailure msg le)) = true) ∧
    (∀ (ss : Chars → Resolution) (maxRetries delay attempt : Nat) (curLog : List Chars)
       (msg : Chars) (le : LockEnv) (rest : List BisyncOutcome),
      (maxRetries = 0 ∨ attempt + 1 < maxRetries) →
      runSyncLoop false ss false maxRetries delay
          (BisyncOutcome.launchFailure msg le :: rest) curLog attempt =
        (runSyncLoop false ss false maxRetries delay rest curLog (attempt + 1)).map
          (fun pr => (pr.1,
            (Event.bisyncStart false :: cleanupLockFile le) ++ Event.sleep delay :: pr.2))) := by
  refine ⟨fun _ _ _ _ => rfl, fun _ _ => rfl, ?_⟩
  intro ss maxRetries delay attempt curLog msg le rest hbudget
  have hnb : ¬ (0 < maxRetries ∧ maxRetries ≤ attempt + 1) := by omega
  simp only [runSyncLoop, bisyncResultOf, logAfter, attemptEvents, lockOf]
  norm_num [isRetryableError]
  rw [if_neg hnb]
  cases runSyncLoop false ss false maxRetries delay rest curLog (attempt + 1) with
  | none => rfl
  | some pr => rfl

/-- Witness for C10: with unlimited retries, a concrete launch failure is followed by
a second attempt after the delay. -/
theorem c10_witness :
    runSyncLoop false ssW false 0 30
        (BisyncOutcome.launchFailure (str "no exec") lockQuiet :: [attemptOk]) [] 0 =
      (runSyncLoop false ssW false 0 30 [attemptOk] [] 1).map
        (fun pr => (pr.1,
          (Event.bisyncStart false :: cleanupLockFile lockQuiet) ++ Event.sleep 30 :: pr.2)) :=
  c10_launch_failure_is_retried.2.2 ssW 0 30 0 [] (str "no exec") lockQuiet [attemptOk]
    (Or.inl rfl)

/-- The lock-cleanup events contain no sync-attempt start. -/
theorem cleanupLockFile_no_start (le : LockEnv) :
    (cleanupLockFile le).filter isAttemptStart = [] := by
  obtain ⟨p, u⟩ := le
  cases p <;> cases u <;> rfl

/-- The lock-cleanup events contain no sleep. -/
theorem cleanupLockFile_no_sleep (le : LockEnv) :
    (cleanupLockFile le).filter isSleepEv = [] := by
  obtain ⟨p, u⟩ := le
  cases p <;> cases u <;> rfl

/-- A sleep event never occurs among one attempt's own events. -/
theorem sleep_not_mem_attemptEvents (r : Bool) (o : BisyncOutcome) (n : Nat) :
    ¬ Event.sleep n ∈ attemptEvents r o := by
  cases o with
  | ran code log res le =>
    obtain ⟨p, u⟩ := le
    cases p <;> cases u <;> simp [attemptEvents, cleanupLockFile, lockOf]
  | launchFailure msg le =>
    obtain ⟨p, u⟩ := le
    cases p <;> cases u <;> simp [attemptEvents, cleanupLockFile, lockOf]

/-- Attempt-start count of the all-retryable trace: one per attempt. -/
theorem retryTrace_start_count (d : Nat) (outs : List BisyncOutcome) :
    ((retryTrace d outs).filter isAttemptStart).length = outs.length := by
  induction outs with
  | nil => rfl
  | cons o rest ih =>
    cases rest with
    | nil =>
      simp [retryTrace, attemptEvents, List.filter_cons, isAttemptStart,
        cleanupLockFile_no_start (lockOf o)]
    | cons o2 rest2 =>
      rw [retryTrace, List.filter_append]
      simp [attemptEvents, List.filter_cons, isAttemptStart,
        cleanupLockFile_no_start (lockOf o), ih]

/-- Sleep count of the all-retryable trace: one between consecutive attempts. -/
theorem retryTrace_sleep_count (d : Nat) (outs : List BisyncOutcome) :
    ((retryTrace d outs).filter isSleepEv).length = outs.length - 1 := by
  induction outs with
  | nil => rfl
  | cons o rest ih =>
    cases rest with
    | nil =>
      simp [retryTrace, attemptEvents, List.filter_cons, isSleepEv,
        cleanupLockFile_no_sleep (lockOf o)]
    | cons o2 rest2 =>
      rw [retryTrace, List.filter_append]
      simp [attemptEvents, List.filter_cons, isSleepEv,
        cleanupLockFile_no_sleep (lockOf o), ih]

/-- Every sleep in the all-retryable trace is the configured fixed delay. -/
theorem retryTrace_sleep_fixed (d : Nat) (outs : List BisyncOutcome) (n : Nat)
    (h : Event.sleep n ∈ retryTrace d outs) : n = d := by
  induction outs with
  | nil => exact absurd h (by simp [retryTrace])
  | cons o rest ih =>
    cases rest with
    | nil => exact absurd h (sleep_not_mem_attemptEvents false o n)
    | cons o2 rest2 =>
      rw [retryTrace] at h
      rcases List.mem_append.mp h with h | h
      · exact absurd h (sleep_not_mem_attemptEvents false o n)
      · rcases List.mem_cons.mp h with h | h
        · exact Event.sleep.inj h
        · exact ih h

/-- The all-retryable loop: every attempt fails with exit code 1, so with budget `k`
the loop performs one attempt per iteration, sleeps the fixed delay between them, and
returns the final attempt's result when the budget is reached. -/
theorem runSyncLoop_all_retryable (ss : Chars → Resolution) (k d : Nat) :
    ∀ (outs : List BisyncOutcome) (curLog : List Chars) (attempt : Nat)
      (lastO : BisyncOutcome),
      outs ≠ [] → attempt + outs.length = k →
      (∀ o ∈ outs, (bisyncResultOf o).exit_code = 1) →
      lastOf outs = some lastO →
      runSyncLoop false ss false k d outs curLog attempt =
        some (bisyncResultOf lastO, retryTrace d outs) := by
  intro outs
  induction outs with
  | nil => intro _ _ _ h _ _ _; exact absurd rfl h
  | cons o rest ih =>
    intro curLog attempt lastO _ hlen hall hlast
    have h1 : (bisyncResultOf o).exit_code = 1 := hall o (by simp)
    simp only [runSyncLoop, h1]
    rw [if_neg (by norm_num : ¬ (1 : Int) = 0)]
    rw [if_neg (by norm_num : ¬ ((1 : Int) = 7 ∧ True))]
    rw [if_neg (by simp [isRetryableError, h1] :
      ¬ isRetryableError (bisyncResultOf o) = false)]
    cases rest with
    | nil =>
      have hb : 0 < k ∧ k ≤ attempt + 1 := by
        simp at hlen
        omega
      rw [if_pos hb]
      have : lastO = o := by
        simp [lastOf] at hlast
        exact hlast.symm
      rw [this]
      rfl
    | cons o2 rest2 =>
      have hb : ¬ (0 < k ∧ k ≤ attempt + 1) := by
        simp at hlen
        omega
      rw [if_neg hb, if_neg (by simp : ¬ false = true)]
      have hrec := ih (logAfter curLog o) (attempt + 1) lastO (by simp)
        (by simp at hlen ⊢; omega) (fun x hx => hall x (List.mem_cons_of_mem _ hx)) hlast
      rw [hrec]
      rfl

/-- C5: with `max_retries = k > 0` and every attempt ending retryable (exit code 1),
exactly `k` sync attempts occur — the trace holds `k` attempt starts and `k - 1`
fixed-delay sleeps, every sleep being the configured delay — and after the `k`-th
attempt the controller gives up and returns that last attempt's result. -/
theorem c5_budget_bounds_attempts (ss : Chars → Resolution) (k d : Nat)
    (outs : List BisyncOutcome) (lastO : BisyncOutcome)
    (hk : 0 < k) (hlen : outs.length = k)
    (hall : ∀ o ∈ outs, (bisyncResultOf o).exit_code = 1)
    (hlast : lastOf outs = some lastO) :
    runSyncLoop false ss false k d outs [] 0 =
      some (bisyncResultOf lastO, retryTrace d outs) ∧
    ((retryTrace d outs).filter isAttemptStart).length = k ∧
    ((retryTrace d outs).filter isSleepEv).length = k - 1 ∧
    (∀ n, Event.sleep n ∈ retryTrace d outs → n = d) := by
  refine ⟨?_, ?_, ?_, fun n hn => retryTrace_sleep_fixed d outs n hn⟩
  · exact runSyncLoop_all_retryable ss k d outs [] 0 lastO
      (by intro h; rw [h] at hlen; simp at hlen; omega) (by simpa using hlen) hall hlast
  · rw [retryTrace_start_count, hlen]
  · rw [retryTrace_sleep_count, hlen]

/-- Witness for C5: three attempts with exit code 1 under `max_retries = 3`. -/
theorem c5_witness :
    runSyncLoop false ssW false 3 30 [attempt1, attempt1, attempt1] [] 0 =
      some (bisyncResultOf attempt1, retryTrace 30 [attempt1, attempt1, attempt1]) ∧
    ((retryTrace 30 [attempt1, attempt1, attempt1]).filter isAttemptStart).length = 3 ∧
    ((retryTrace 30 [attempt1, attempt1, attempt1]).filter isSleepEv).length = 3 - 1 ∧
    (∀ n, Event.sleep n ∈ retryTrace 30 [attempt1, attempt1, attempt1] → n = 30) :=
  c5_budget_bounds_attempts ssW 3 30 [attempt1, attempt1, attempt1] attempt1
    (by decide) rfl (by decide) rfl

/-- The resync-start events of one attempt's own events: exactly one when the attempt
is a forced resync, none otherwise. -/
theorem attemptEvents_filter_resync (r : Bool) (o : BisyncOutcome) :
    (attemptEvents r o).filter isResyncStart =
      if r then [Event.bisyncStart true] else [] := by
  cases o with
  | ran code log res le =>
    obtain ⟨p, u⟩ := le
    cases p <;> cases u <;> cases r <;> rfl
  | launchFailure msg le =>
    obtain ⟨p, u⟩ := le
    cases p <;> cases u <;> cases r <;> rfl

/-- One attempt's own events contain no sleep. -/
theorem attemptEvents_filter_sleep (r : Bool) (o : BisyncOutcome) :
    (attemptEvents r o).filter isSleepEv = [] := by
  cases o with
  | ran code log res le =>
    obtain ⟨p, u⟩ := le
    cases p <;> cases u <;> cases r <;> rfl
  | launchFailure msg le =>
    obtain ⟨p, u⟩ := le
    cases p <;> cases u <;> cases r <;> rfl

/-- One attempt's own events contain no individual-file retry. -/
theorem attemptEvents_filter_fileRetry (r : Bool) (o : BisyncOutcome) :
    (attemptEvents r o).filter isFileRetryEv = [] := by
  cases o with
  | ran code log res le =>
    obtain ⟨p, u⟩ := le
    cases p <;> cases u <;> cases r <;> rfl
  | launchFailure msg le =>
    obtain ⟨p, u⟩ := le
    cases p <;> cases u <;> cases r <;> rfl

/-- Direct-copy events satisfy none of the attempt/sleep/file-retry classifiers. -/
theorem map_directCopy_filter (p : Event → Bool) (l : List Chars)
    (hp : ∀ f, p (Event.directCopy f) = false) :
    ((l.map (fun f => Event.directCopy f)).filter p) = [] := by
  apply List.filter_eq_nil_iff.mpr
  intro e he
  rcases List.mem_map.mp he with ⟨f, _, rfl⟩
  simp [hp f]

/-- C4: an exit-code-7 attempt outside a forced-resync pass whose log digest shows
100% transfer completion with metadata-update errors is followed by exactly one
forced-resync attempt — no individual-file retries and no retry sleeps — after which
the controller re-parses the log for copy failures, retries each of those via direct
single-file copy, and returns the resync attempt's result. -/
theorem c4_metadata_errors_force_one_resync (ss : Chars → Resolution)
    (mr d attempt : Nat) (curLog log1 : List Chars) (res1 : List Resolution)
    (le1 : LockEnv) (o2 : BisyncOutcome) (rest : List BisyncOutcome)
    (hct : checkTransfersCompleted log1 = true) :
    runSyncLoop false ss false mr d
        (BisyncOutcome.ran 7 log1 res1 le1 :: o2 :: rest) curLog attempt =
      some (bisyncResultOf o2,
        attemptEvents false (BisyncOutcome.ran 7 log1 res1 le1) ++ attemptEvents true o2 ++
          (parseCopyFailures (logAfter log1 o2)).map (fun f => Event.directCopy f)) ∧
    ((attemptEvents false (BisyncOutcome.ran 7 log1 res1 le1) ++ attemptEvents true o2 ++
        (parseCopyFailures (logAfter log1 o2)).map (fun f => Event.directCopy f)).filter
      isResyncStart) = [Event.bisyncStart true] ∧
    ((attemptEvents false (BisyncOutcome.ran 7 log1 res1 le1) ++ attemptEvents true o2 ++
        (parseCopyFailures (logAfter log1 o2)).map (fun f => Event.directCopy f)).filter
      isSleepEv) = [] ∧
    ((attemptEvents false (BisyncOutcome.ran 7 log1 res1 le1) ++ attemptEvents true o2 ++
        (parseCopyFailures (logAfter log1 o2)).map (fun f => Event.directCopy f)).filter
      isFileRetryEv) = [] := by
  refine ⟨?_, ?_, ?_, ?_⟩
  · simp only [runSyncLoop, bisyncResultOf, logAfter]
    rw [if_neg (by norm_num : ¬ (7 : Int) = 0)]
    rw [if_pos (And.intro trivial trivial)]
    rw [if_pos hct]
    rfl
  · rw [List.filter_append, List.filter_append, attemptEvents_filter_resync,
      attemptEvents_filter_resync,
      map_directCopy_filter isResyncStart _ (fun f => rfl)]
    rfl
  · rw [List.filter_append, List.filter_append, attemptEvents_filter_sleep,
      attemptEvents_filter_sleep,
      map_directCopy_filter isSleepEv _ (fun f => rfl)]
    rfl
  · rw [List.filter_append, List.filter_append, attemptEvents_filter_fileRetry,
      attemptEvents_filter_fileRetry,
      map_directCopy_filter isFileRetryEv _ (fun f => rfl)]
    rfl

/-- Witness for C4: a concrete exit-code-7 attempt whose log holds
`Transferred: 312 / 312, 100%` and a metadata-update error line. -/
theorem c4_witness :
    runSyncLoop false ssW false 3 30
        (BisyncOutcome.ran 7 logMeta [] lockQuiet :: attemptOk :: []) [] 0 =
      some (bisyncResultOf attemptOk,
        attemptEvents false (BisyncOutcome.ran 7 logMeta [] lockQuiet) ++
          attemptEvents true attemptOk ++
          (parseCopyFailures (logAfter logMeta attemptOk)).map
            (fun f => Event.directCopy f)) :=
  (c4_metadata_errors_force_one_resync ssW 3 30 0 [] logMeta [] lockQuiet attemptOk []
    (by decide)).1

/-- C6: a failed attempt classifies as retryable exactly when its exit code is 1, or
its exit code is 7 and some recorded error message contains
`retryable without --resync` (checked on the lowercased message); and when the
controller reaches a non-retryable classification (exit code nonzero and not captured
by the exit-code-7 recovery branch, which the spec's step 2 orders first), it stops
retrying, performs one direct-copy pass over every file the log reports as
failed-to-copy, and returns the failed attempt's result. -/
theorem c6_nonretryable_stops_with_direct_copy :
    (∀ r : SyncResult, isRetryableError r = true ↔
      (r.exit_code = 1 ∨
        (r.exit_code = 7 ∧ ∃ e ∈ r.errors, hasSub retryPhrase (lowerChars e) = true))) ∧
    (∀ (ss : Chars → Resolution) (mr d attempt : Nat) (curLog : List Chars)
       (code : Int) (log : List Chars) (res : List Resolution) (le : LockEnv)
       (rest : List BisyncOutcome),
      ¬ code = 0 →
      ¬ (code = 7 ∧ (checkTransfersCompleted log = true ∨ ¬ parseFailedFiles log = [])) →
      isRetryableError (bisyncResultOf (BisyncOutcome.ran code log res le)) = false →
      runSyncLoop false ss false mr d
          (BisyncOutcome.ran code log res le :: rest) curLog attempt =
        some (bisyncResultOf (BisyncOutcome.ran code log res le),
          attemptEvents false (BisyncOutcome.ran code log res le) ++
            (parseCopyFailures log).map (fun f => Event.directCopy f))) := by
  constructor
  · intro r
    by_cases h1 : r.exit_code = 1
    · simp [isRetryableError, h1]
    · by_cases h7 : r.exit_code = 7
      · simp [isRetryableError, h1, h7, List.any_eq_true]
      · simp [isRetryableError, h1, h7]
  · intro ss mr d attempt curLog code log res le rest h0 hnc hret
    simp only [runSyncLoop, bisyncResultOf, logAfter]
    rw [if_neg h0]
    by_cases hc7 : code = 7
    · have hck : ¬ checkTransfersCompleted log = true :=
        fun h => hnc ⟨hc7, Or.inl h⟩
      have hff : parseFailedFiles log = [] := by
        by_contra h
        exact hnc ⟨hc7, Or.inr h⟩
      rw [if_pos (And.intro hc7 trivial), if_neg hck, if_pos hff]
      rw [if_pos (by simp only [bisyncResultOf] at hret; exact hret)]
      rfl
    · rw [if_neg (fun h : code = 7 ∧ True => hc7 h.1)]
      rw [if_pos (by simp only [bisyncResultOf] at hret; exact hret)]
      rfl

/-- Witness for C6: a concrete fatal usage-error attempt (exit code 2) over an empty
log stops immediately and returns that attempt's result. -/
theorem c6_witness :
    runSyncLoop false ssW false 3 30 (BisyncOutcome.ran 2 [] [] lockQuiet :: []) [] 0 =
      some (bisyncResultOf (BisyncOutcome.ran 2 [] [] lockQuiet),
        attemptEvents false (BisyncOutcome.ran 2 [] [] lockQuiet) ++
          (parseCopyFailures []).map (fun f => Event.directCopy f)) :=
  c6_nonretryable_stops_with_direct_copy.2 ssW 3 30 0 [] 2 [] [] lockQuiet []
    (by norm_num) (by simp) (by decide)

/-- C2 counterexample: the marker `x.conflict1.conflict2` with equal local and remote
timestamps resolves as `kept_both`, but the generated names
`x.local-<date>.conflict1` / `x.remote-<date>.conflict1` themselves match the
conflict-marker pattern, so conflict-marker filenames survive and re-running the
resolution does not find zero markers. -/
theorem c2_counterexample :
    ((resolveRemainingConflicts false remoteNested dateW false fsNested).2.1).map
        (fun r => r.action) = [str "kept_both"] ∧
    ¬ conflictFilesOf
        ((resolveRemainingConflicts false remoteNested dateW false fsNested).1) = [] := by
  constructor
  · decide
  · decide

/-- C2 amended: for a conflict-marker file with exactly equal local and remote mtimes,
outside dry-run, when it is the only marker-patterned name in the tree and the two
generated names do not themselves match the marker pattern (which fails only when the
original's own name contains `.conflict<digit>`): the resolver produces exactly the
two files `<stem>.local-<date><ext>` and `<stem>.remote-<date><ext>` (holding the
local and the marker's remote content respectively), neither the original filename
nor the marker filename survives, the recorded action is `kept_both`, and re-running
conflict resolution on the resulting state finds zero conflict markers and is a
no-op. -/
theorem c2_equal_timestamps_keep_both
    (remote : Chars → Option Int) (date : Chars) (fs : LocalFS)
    (marker orig L R : Chars) (fo fm : FileData)
    (hs : stripConflictSuffix marker = some orig)
    (ho : lookupFS fs orig = some fo)
    (hm : lookupFS fs marker = some fm)
    (hr : remote orig = some fo.mtime)
    (hcf : conflictFilesOf fs = [marker])
    (hL : L = keptBothLocalName orig date)
    (hR : R = keptBothRemoteName orig date)
    (hLn : isConflictName L = false)
    (hRn : isConflictName R = false) :
    resolveRemainingConflicts false remote date false fs =
      (renameFS (renameFS fs orig L) marker R,
       [⟨orig, str "kept_both",
         str "Timestamps equal, renamed to " ++ L ++ str " and " ++ R⟩],
       []) ∧
    lookupFS (renameFS (renameFS fs orig L) marker R) L = some fo ∧
    lookupFS (renameFS (renameFS fs orig L) marker R) R = some fm ∧
    lookupFS (renameFS (renameFS fs orig L) marker R) orig = none ∧
    lookupFS (renameFS (renameFS fs orig L) marker R) marker = none ∧
    conflictFilesOf (renameFS (renameFS fs orig L) marker R) = [] ∧
    resolveRemainingConflicts false remote date false
        (renameFS (renameFS fs orig L) marker R) =
      (renameFS (renameFS fs orig L) marker R, [], []) := by
  subst hL
  subst hR
  have hMn : isConflictName marker = true := isConflictName_of_strip hs
  have hmo : ¬ marker = orig := stripConflictSuffix_ne hs
  have hmL : ¬ marker = keptBothLocalName orig date := by
    intro h
    rw [h, hLn] at hMn
    exact Bool.noConfusion hMn
  have hmR : ¬ marker = keptBothRemoteName orig date := by
    intro h
    rw [h, hRn] at hMn
    exact Bool.noConfusion hMn
  have horig : orig.length = (pyStem orig).length + (pySuffix orig).length := by
    rw [← List.length_append, pyStem_append_pySuffix]
  have hlenL : (keptBothLocalName orig date).length = orig.length + 7 + date.length := by
    simp only [keptBothLocalName, List.length_append]
    have : (str ".local-").length = 7 := rfl
    omega
  have hlenR : (keptBothRemoteName orig date).length = orig.length + 8 + date.length := by
    simp only [keptBothRemoteName, List.length_append]
    have : (str ".remote-").length = 8 := rfl
    omega
  have hoL : ¬ orig = keptBothLocalName orig date := by
    intro h
    have := congrArg List.length h
    omega
  have hoR : ¬ orig = keptBothRemoteName orig date := by
    intro h
    have := congrArg List.length h
    omega
  have hLR : ¬ keptBothLocalName orig date = keptBothRemoteName orig date := by
    intro h
    have := congrArg List.length h
    omega
  have hm1 : lookupFS (renameFS fs orig (keptBothLocalName orig date)) marker = some fm :=
    (lookupFS_renameFS_other fs hmo hmL).trans hm
  have hng : ¬ fo.mtime > fo.mtime := lt_irrefl _
  have hsingle : resolveSingleConflict false remote date fs marker =
      ⟨renameFS (renameFS fs orig (keptBothLocalName orig date)) marker
          (keptBothRemoteName orig date),
        some ⟨orig, str "kept_both",
          str "Timestamps equal, renamed to " ++ keptBothLocalName orig date ++
            str " and " ++ keptBothRemoteName orig date⟩, []⟩ := by
    simp [resolveSingleConflict, hs, ho, hr, hng, hm1]
  have hnomem : ¬ marker ∈ (renameFS (renameFS fs orig (keptBothLocalName orig date))
      marker (keptBothRemoteName orig date)).map Prod.fst :=
    not_mem_keys_renameFS_src hm1 hmR
  have hzero : conflictFilesOf (renameFS (renameFS fs orig (keptBothLocalName orig date))
      marker (keptBothRemoteName orig date)) = [] := by
    apply List.filter_eq_nil_iff.mpr
    intro k hk
    intro hkc
    rcases mem_keys_renameFS hk with hk1 | hk1
    · rcases mem_keys_renameFS hk1 with hk2 | hk2
      · have hkm : k ∈ conflictFilesOf fs := List.mem_filter.mpr ⟨hk2, hkc⟩
        rw [hcf] at hkm
        have : k = marker := by simpa using hkm
        rw [this] at hk
        exact hnomem hk
      · rw [hk2, hLn] at hkc
        exact Bool.noConfusion hkc
    · rw [hk1, hRn] at hkc
      exact Bool.noConfusion hkc
  refine ⟨?_, ?_, ?_, ?_, ?_, hzero, ?_⟩
  · unfold resolveRemainingConflicts
    rw [hcf]
    simp [resolvePassAux, hsingle]
  · rw [lookupFS_renameFS_other _ (fun h => hmL h.symm) hLR]
    exact lookupFS_renameFS_dst fs orig (keptBothLocalName orig date) fo ho
  · exact lookupFS_renameFS_dst _ marker (keptBothRemoteName orig date) fm hm1
  · rw [lookupFS_renameFS_other _ (fun h => hmo h.symm) hoR]
    exact lookupFS_renameFS_src fs hoL
  · exact lookupFS_renameFS_src _ hmR
  · unfold resolveRemainingConflicts
    rw [hzero]
    rfl

/-- Witness for C2 amended: `doc.txt` and its marker with equal timestamps resolve to
the two dated names and leave zero conflict markers behind. -/
theorem c2_witness :
    resolveRemainingConflicts false remoteDocEq dateW false fsDocEq =
      (renameFS (renameFS fsDocEq (str "doc.txt") (keptBothLocalName (str "doc.txt") dateW))
          (str "doc.txt.conflict1") (keptBothRemoteName (str "doc.txt") dateW),
       [⟨str "doc.txt", str "kept_both",
         str "Timestamps equal, renamed to " ++ keptBothLocalName (str "doc.txt") dateW ++
           str " and " ++ keptBothRemoteName (str "doc.txt") dateW⟩],
       []) ∧
    conflictFilesOf
        (renameFS (renameFS fsDocEq (str "doc.txt") (keptBothLocalName (str "doc.txt") dateW))
          (str "doc.txt.conflict1") (keptBothRemoteName (str "doc.txt") dateW)) = [] :=
  ⟨(c2_equal_timestamps_keep_both remoteDocEq dateW fsDocEq (str "doc.txt.conflict1")
      (str "doc.txt") (keptBothLocalName (str "doc.txt") dateW)
      (keptBothRemoteName (str "doc.txt") dateW) ⟨100, 1⟩ ⟨100, 2⟩
      (by decide) (by decide) (by decide) (by decide) (by decide) rfl rfl
      (by decide) (by decide)).1,
   (c2_equal_timestamps_keep_both remoteDocEq dateW fsDocEq (str "doc.txt.conflict1")
      (str "doc.txt") (keptBothLocalName (str "doc.txt") dateW)
      (keptBothRemoteName (str "doc.txt") dateW) ⟨100, 1⟩ ⟨100, 2⟩
      (by decide) (by decide) (by decide) (by decide) (by decide) rfl rfl
      (by decide) (by decide)).2.2.2.2.2.1⟩

end RcloneSync
